import Mathlib

/-!
Verification of the session/protocol engine of the `tsar-advisor` extension.

This file gives a shallow embedding, in Lean 4, of the core logic of the
repository and proves (or refutes) the frozen specification claims about it.
The embedded parts are:

* `src/messages.ts` — the message catalog: the typed message classes
  `Diagnostic`, `Statistic`, `FunctionList`, `LoopTree`, `CalleeFuncList`
  together with their `toJSON` / `fromJSON` routines, modelled over an
  explicit JSON-value type `JVal`.  `JSON.stringify ∘ JSON.parse` is the
  identity on well-formed JSON values, so the encode→decode pipeline is
  modelled at the JSON-value level; a JavaScript object field holding
  `undefined` is dropped by `JSON.stringify`, which the embedding reflects by
  omitting the field.
* `src/project.ts` (class `Project`) — the per-session response log, cursor,
  provider registry, `send`, `update`, `dispose`.
* `src/project.ts` (class `ProjectEngine`) — the chunk splitting in
  `_onResponse`, the decode/dispatch loop, and the `start` / `_startServer`
  handshake modelled as a small-step event machine.
* `src/loopTree.ts` (`ProjectWebviewProviderState.onResponse` and
  `ProjectWebviewProvider.provideContent`) — the renderer-state cache.

Machine integers of the wire format are modelled as `Int` (the JSON numbers in
these messages are integral), booleans as `Bool`, optional (possibly
`undefined`) fields as `Option`.
-/

namespace Tsar

/-- JSON values as exchanged on the wire (`null` does not occur in the
encoded messages, so it is omitted). An object is a finite list of
key/value fields in insertion order. -/
inductive JVal where
  | jstr (s : String)
  | jnum (n : Int)
  | jbool (b : Bool)
  | jarr (xs : List JVal)
  | jobj (fields : List (String × JVal))
deriving Repr

/-- Look up a field of a JSON object, `none` when the key is absent
(which corresponds to the JavaScript value `undefined`). -/
def lookupField (fs : List (String × JVal)) (k : String) : Option JVal :=
  (fs.find? (fun p => p.1 = k)).map (fun p => p.2)

/-- Coerce a JSON value to a string, as the typed reading of an untyped
JavaScript field access expecting a string. -/
def asStr : JVal → Option String
  | .jstr s => some s
  | _ => none

/-- Coerce a JSON value to an integer. -/
def asNum : JVal → Option Int
  | .jnum n => some n
  | _ => none

/-- Coerce a JSON value to a boolean. -/
def asBool : JVal → Option Bool
  | .jbool b => some b
  | _ => none

/-- Decode every element of a JSON array, failing when one element fails. -/
def decodeList {α : Type} (g : JVal → Option α) : List JVal → Option (List α)
  | [] => some []
  | v :: vs => do
    let a ← g v
    let as ← decodeList g vs
    pure (a :: as)

/-- Coerce a JSON value to an array of strings. -/
def asStrList : JVal → Option (List String)
  | .jarr xs => decodeList asStr xs
  | _ => none

/-- The `Status` enumeration of `messages.ts`:
`export enum Status {Success, Error, Invalid}`. -/
inductive Status where
  | Success
  | Error
  | Invalid
deriving DecidableEq, Repr

/-- The string name of a status value, i.e. the JavaScript reverse
enum-mapping `Status[this.Status]`. -/
def statusName : Status → String
  | .Success => "Success"
  | .Error => "Error"
  | .Invalid => "Invalid"

/-- The enum value for a status name, i.e. the JavaScript mapping
`Status[json['Status']]`; unknown names give `undefined` (`none`). -/
def statusFromName : String → Option Status
  | "Success" => some .Success
  | "Error" => some .Error
  | "Invalid" => some .Invalid
  | _ => none

/-- The `Diagnostic` message class of `messages.ts`. `Error` and `Warning`
are string lists (`Arguments`), `Terminal` is a string field that may be
left `undefined`, `Status` a `Status` enum value. -/
structure Diagnostic where
  Error : List String
  Warning : List String
  Terminal : Option String
  Status : Status
deriving DecidableEq, Repr

/-- The source `Diagnostic.toJSON`: `Object.assign({name: Diagnostic.name},
this)` followed by `json.Status = Status[this.Status]`. Fields appear in
JavaScript own-key order; an unset `Terminal` yields no field. -/
def Diagnostic.toJSON (d : Diagnostic) : List (String × JVal) :=
  [("name", .jstr "Diagnostic"),
   ("Error", .jarr (d.Error.map .jstr)),
   ("Warning", .jarr (d.Warning.map .jstr))]
  ++ (match d.Terminal with
      | some t => [("Terminal", .jstr t)]
      | none => [])
  ++ [("Status", .jstr (statusName d.Status))]

/-- The source `Diagnostic.fromJSON` (object branch): copy the fields onto a
fresh object and convert `Status` back through the enum. The JavaScript code
copies fields untyped; the typed embedding reads each declared field and
fails (`none`) when a required field is missing or ill-typed, which never
happens on output of `toJSON`. -/
def Diagnostic.fromJSON (fs : List (String × JVal)) : Option Diagnostic := do
  let e ← lookupField fs "Error" >>= asStrList
  let w ← lookupField fs "Warning" >>= asStrList
  let t : Option String := lookupField fs "Terminal" >>= asStr
  let st ← lookupField fs "Status" >>= asStr >>= statusFromName
  pure ⟨e, w, t, st⟩

/-- The `TraitStatistic` record of `messages.ts` (all counters). -/
structure TraitStatistic where
  AddressAccess : Int
  HeaderAccess : Int
  NoAccess : Int
  Readonly : Int
  Shared : Int
  Private : Int
  FirstPrivate : Int
  SecondToLastPrivate : Int
  LastPrivate : Int
  DynamicPrivate : Int
  Reduction : Int
  Induction : Int
  Anti : Int
  Output : Int
  Flow : Int
deriving DecidableEq, Repr

/-- Encode a `TraitStatistic` as a JSON object (plain field copy). -/
def TraitStatistic.toJVal (t : TraitStatistic) : JVal :=
  .jobj [("AddressAccess", .jnum t.AddressAccess),
         ("HeaderAccess", .jnum t.HeaderAccess),
         ("NoAccess", .jnum t.NoAccess),
         ("Readonly", .jnum t.Readonly),
         ("Shared", .jnum t.Shared),
         ("Private", .jnum t.Private),
         ("FirstPrivate", .jnum t.FirstPrivate),
         ("SecondToLastPrivate", .jnum t.SecondToLastPrivate),
         ("LastPrivate", .jnum t.LastPrivate),
         ("DynamicPrivate", .jnum t.DynamicPrivate),
         ("Reduction", .jnum t.Reduction),
         ("Induction", .jnum t.Induction),
         ("Anti", .jnum t.Anti),
         ("Output", .jnum t.Output),
         ("Flow", .jnum t.Flow)]

/-- Decode a `TraitStatistic` from a JSON value. -/
def TraitStatistic.fromJVal : JVal → Option TraitStatistic
  | .jobj fs => do
    let aa ← lookupField fs "AddressAccess" >>= asNum
    let ha ← lookupField fs "HeaderAccess" >>= asNum
    let na ← lookupField fs "NoAccess" >>= asNum
    let ro ← lookupField fs "Readonly" >>= asNum
    let sh ← lookupField fs "Shared" >>= asNum
    let pv ← lookupField fs "Private" >>= asNum
    let fp ← lookupField fs "FirstPrivate" >>= asNum
    let sl ← lookupField fs "SecondToLastPrivate" >>= asNum
    let lp ← lookupField fs "LastPrivate" >>= asNum
    let dp ← lookupField fs "DynamicPrivate" >>= asNum
    let rd ← lookupField fs "Reduction" >>= asNum
    let ind ← lookupField fs "Induction" >>= asNum
    let an ← lookupField fs "Anti" >>= asNum
    let ou ← lookupField fs "Output" >>= asNum
    let fl ← lookupField fs "Flow" >>= asNum
    pure ⟨aa, ha, na, ro, sh, pv, fp, sl, lp, dp, rd, ind, an, ou, fl⟩
  | _ => none

/-- The runtime `TypeError` raised by JavaScript when a property of
`undefined` is read or assigned. -/
inductive TypeErr where
  | typeError
deriving DecidableEq, Repr

/-- The `Statistic` message class of `messages.ts`. `Files` is an object
mapping file kinds to counts (modelled as an association list); `Loops` and
`Variables` are pairs indexed by the `Analysis` enum (`Yes = 0`, `No = 1`)
which the source explicitly tests against `undefined`, hence `Option`. -/
structure Statistic where
  Files : List (String × Int)
  Functions : Int
  Loops : Option (Int × Int)
  Variables : Option (Int × Int)
  Traits : TraitStatistic
deriving DecidableEq, Repr

/-- The source `Statistic.toJSON`:

```
let json:any = Object.assign({name: Statistic.name}, this);
json.Loops = undefined;
if (this.Loops !== undefined) {
  json.Loops[Analysis[Analysis.Yes]] = this.Loops[Analysis.Yes]; ...
```

After `json.Loops = undefined`, the assignment
`json.Loops[...] = ...` is a property assignment on `undefined` and raises a
`TypeError` whenever `this.Loops` is defined; the same happens for
`Variables`. When both are `undefined` the two guarded blocks are skipped and
the `undefined`-valued keys are dropped by `JSON.stringify`. -/
def Statistic.toJSON (s : Statistic) : Except TypeErr (List (String × JVal)) :=
  if s.Loops.isSome then .error .typeError
  else if s.Variables.isSome then .error .typeError
  else .ok
    [("name", .jstr "Statistic"),
     ("Files", .jobj (s.Files.map (fun p => (p.1, .jnum p.2)))),
     ("Functions", .jnum s.Functions),
     ("Traits", s.Traits.toJVal)]

/-- Decode the `Files` association object. -/
def filesFromJVal : JVal → Option (List (String × Int))
  | .jobj fs => fs.mapM (fun p => (asNum p.2).map (fun n => (p.1, n)))
  | _ => none

/-- The source `Statistic.fromJSON` (object branch): every key other than
`Loops` and `Variables` is copied, then

```
obj.Loops[Analysis.Yes] = json.Loops[Analysis[Analysis.Yes]]; ...
```

reads the `Yes`/`No` properties of `json.Loops` and `json.Variables`; when
either key is absent (`undefined`) that property read raises a `TypeError`.
The typed embedding also maps an ill-shaped present field to `.error`; the
theorems below evaluate it only at absent fields and at well-shaped ones. -/
def Statistic.fromJSON (fs : List (String × JVal)) :
    Except TypeErr Statistic :=
  match lookupField fs "Loops", lookupField fs "Variables" with
  | some lv, some vv =>
    match lv, vv with
    | .jobj lf, .jobj vf =>
      (match lookupField lf "Yes" >>= asNum, lookupField lf "No" >>= asNum,
             lookupField vf "Yes" >>= asNum, lookupField vf "No" >>= asNum,
             lookupField fs "Files" >>= filesFromJVal,
             lookupField fs "Functions" >>= asNum,
             lookupField fs "Traits" >>= TraitStatistic.fromJVal with
       | some ly, some ln, some vy, some vn, some fi, some fn, some tr =>
         .ok ⟨fi, fn, some (ly, ln), some (vy, vn), tr⟩
       | _, _, _, _, _, _, _ => .error .typeError)
    | _, _ => .error .typeError
  | _, _ => .error .typeError

/-- The encode→decode pipeline for `Statistic`:
`Statistic.fromJSON(JSON.parse(JSON.stringify(Statistic.toJSON(s))))`. -/
def Statistic.roundTrip (s : Statistic) : Except TypeErr Statistic :=
  s.toJSON >>= Statistic.fromJSON

/-- The `Location` record of `messages.ts`. -/
structure Location where
  Line : Int
  Column : Int
  MacroLine : Int
  MacroColumn : Int
deriving DecidableEq, Repr

/-- Encode a `Location`. -/
def Location.toJVal (l : Location) : JVal :=
  .jobj [("Line", .jnum l.Line),
         ("Column", .jnum l.Column),
         ("MacroLine", .jnum l.MacroLine),
         ("MacroColumn", .jnum l.MacroColumn)]

/-- Decode a `Location`. -/
def Location.fromJVal : JVal → Option Location
  | .jobj fs => do
    let li ← lookupField fs "Line" >>= asNum
    let co ← lookupField fs "Column" >>= asNum
    let ml ← lookupField fs "MacroLine" >>= asNum
    let mc ← lookupField fs "MacroColumn" >>= asNum
    pure ⟨li, co, ml, mc⟩
  | _ => none

/-- The `TraitsLoops` record of `messages.ts`. -/
structure TraitsLoops where
  IsAnalyzed : String
  Perfect : String
  InOut : String
  Canonical : String
deriving DecidableEq, Repr

/-- Encode a `TraitsLoops`. -/
def TraitsLoops.toJVal (t : TraitsLoops) : JVal :=
  .jobj [("IsAnalyzed", .jstr t.IsAnalyzed),
         ("Perfect", .jstr t.Perfect),
         ("InOut", .jstr t.InOut),
         ("Canonical", .jstr t.Canonical)]

/-- Decode a `TraitsLoops`. -/
def TraitsLoops.fromJVal : JVal → Option TraitsLoops
  | .jobj fs => do
    let ia ← lookupField fs "IsAnalyzed" >>= asStr
    let pe ← lookupField fs "Perfect" >>= asStr
    let io ← lookupField fs "InOut" >>= asStr
    let ca ← lookupField fs "Canonical" >>= asStr
    pure ⟨ia, pe, io, ca⟩
  | _ => none

/-- The `Loop` record of `messages.ts`; the source field `Type` is renamed
`LoopType` because `Type` is reserved in Lean. -/
structure Loop where
  ID : Int
  StartLocation : Location
  EndLocation : Location
  Traits : TraitsLoops
  Exit : Int
  Level : Int
  LoopType : String
  Hide : Bool
deriving DecidableEq, Repr

/-- Encode a `Loop` (the JSON key is the source name `Type`). -/
def Loop.toJVal (l : Loop) : JVal :=
  .jobj [("ID", .jnum l.ID),
         ("StartLocation", l.StartLocation.toJVal),
         ("EndLocation", l.EndLocation.toJVal),
         ("Traits", l.Traits.toJVal),
         ("Exit", .jnum l.Exit),
         ("Level", .jnum l.Level),
         ("Type", .jstr l.LoopType),
         ("Hide", .jbool l.Hide)]

/-- Decode a `Loop`. -/
def Loop.fromJVal : JVal → Option Loop
  | .jobj fs => do
    let id ← lookupField fs "ID" >>= asNum
    let sl ← lookupField fs "StartLocation" >>= Location.fromJVal
    let el ← lookupField fs "EndLocation" >>= Location.fromJVal
    let tr ← lookupField fs "Traits" >>= TraitsLoops.fromJVal
    let ex ← lookupField fs "Exit" >>= asNum
    let lv ← lookupField fs "Level" >>= asNum
    let ty ← lookupField fs "Type" >>= asStr
    let hi ← lookupField fs "Hide" >>= asBool
    pure ⟨id, sl, el, tr, ex, lv, ty, hi⟩
  | _ => none

/-- The `FunctionTraits` record of `messages.ts`. -/
structure FunctionTraits where
  Readonly : String
  UnsafeCFG : String
  InOut : String
  Loops : String
deriving DecidableEq, Repr

/-- Encode a `FunctionTraits`. -/
def FunctionTraits.toJVal (t : FunctionTraits) : JVal :=
  .jobj [("Readonly", .jstr t.Readonly),
         ("UnsafeCFG", .jstr t.UnsafeCFG),
         ("InOut", .jstr t.InOut),
         ("Loops", .jstr t.Loops)]

/-- Decode a `FunctionTraits`. -/
def FunctionTraits.fromJVal : JVal → Option FunctionTraits
  | .jobj fs => do
    let ro ← lookupField fs "Readonly" >>= asStr
    let uc ← lookupField fs "UnsafeCFG" >>= asStr
    let io ← lookupField fs "InOut" >>= asStr
    let lo ← lookupField fs "Loops" >>= asStr
    pure ⟨ro, uc, io, lo⟩
  | _ => none

/-- The `Function` record of `messages.ts`. -/
structure Function where
  ID : Int
  Name : String
  StartLocation : Location
  EndLocation : Location
  Loops : List Loop
  Traits : FunctionTraits
deriving DecidableEq, Repr

/-- Encode a `Function`. -/
def Function.toJVal (f : Function) : JVal :=
  .jobj [("ID", .jnum f.ID),
         ("Name", .jstr f.Name),
         ("StartLocation", f.StartLocation.toJVal),
         ("EndLocation", f.EndLocation.toJVal),
         ("Loops", .jarr (f.Loops.map Loop.toJVal)),
         ("Traits", f.Traits.toJVal)]

/-- Decode a `Function`. -/
def Function.fromJVal : JVal → Option Function
  | .jobj fs => do
    let id ← lookupField fs "ID" >>= asNum
    let na ← lookupField fs "Name" >>= asStr
    let sl ← lookupField fs "StartLocation" >>= Location.fromJVal
    let el ← lookupField fs "EndLocation" >>= Location.fromJVal
    let lo ← match lookupField fs "Loops" with
             | some (.jarr xs) => decodeList Loop.fromJVal xs
             | _ => none
    let tr ← lookupField fs "Traits" >>= FunctionTraits.fromJVal
    pure ⟨id, na, sl, el, lo, tr⟩
  | _ => none

/-- The `FunctionList` message class of `messages.ts`. -/
structure FunctionList where
  Functions : List Function
deriving DecidableEq, Repr

/-- The source `FunctionList.toJSON`: `Object.assign({name:
FunctionList.name}, this)`. -/
def FunctionList.toJSON (f : FunctionList) : List (String × JVal) :=
  [("name", .jstr "FunctionList"),
   ("Functions", .jarr (f.Functions.map Function.toJVal))]

/-- The source `FunctionList.fromJSON` (object branch). -/
def FunctionList.fromJSON (fs : List (String × JVal)) : Option FunctionList := do
  let fns ← match lookupField fs "Functions" with
            | some (.jarr xs) => decodeList Function.fromJVal xs
            | _ => none
  pure ⟨fns⟩

/-- The `LoopTree` message class of `messages.ts`. -/
structure LoopTree where
  FunctionID : Int
  Loops : List Loop
deriving DecidableEq, Repr

/-- The source `LoopTree.toJSON`. -/
def LoopTree.toJSON (l : LoopTree) : List (String × JVal) :=
  [("name", .jstr "LoopTree"),
   ("FunctionID", .jnum l.FunctionID),
   ("Loops", .jarr (l.Loops.map Loop.toJVal))]

/-- The source `LoopTree.fromJSON` (object branch). -/
def LoopTree.fromJSON (fs : List (String × JVal)) : Option LoopTree := do
  let fid ← lookupField fs "FunctionID" >>= asNum
  let lo ← match lookupField fs "Loops" with
           | some (.jarr xs) => decodeList Loop.fromJVal xs
           | _ => none
  pure ⟨fid, lo⟩

/-- The `CalleeFuncInfo` record of `messages.ts`. -/
structure CalleeFuncInfo where
  ID : String
  Level : Int
  Name : String
  Locations : List Location
deriving DecidableEq, Repr

/-- Encode a `CalleeFuncInfo`. -/
def CalleeFuncInfo.toJVal (c : CalleeFuncInfo) : JVal :=
  .jobj [("ID", .jstr c.ID),
         ("Level", .jnum c.Level),
         ("Name", .jstr c.Name),
         ("Locations", .jarr (c.Locations.map Location.toJVal))]

/-- Decode a `CalleeFuncInfo`. -/
def CalleeFuncInfo.fromJVal : JVal → Option CalleeFuncInfo
  | .jobj fs => do
    let id ← lookupField fs "ID" >>= asStr
    let lv ← lookupField fs "Level" >>= asNum
    let na ← lookupField fs "Name" >>= asStr
    let lo ← match lookupField fs "Locations" with
             | some (.jarr xs) => decodeList Location.fromJVal xs
             | _ => none
    pure ⟨id, lv, na, lo⟩
  | _ => none

/-- The `CalleeFuncList` message class of `messages.ts`. -/
structure CalleeFuncList where
  ID : String
  FuncID : Int
  LoopID : Int
  Attr : Int
  Functions : List CalleeFuncInfo
deriving DecidableEq, Repr

/-- The source `CalleeFuncList.toJSON`. -/
def CalleeFuncList.toJSON (c : CalleeFuncList) : List (String × JVal) :=
  [("name", .jstr "CalleeFuncList"),
   ("ID", .jstr c.ID),
   ("FuncID", .jnum c.FuncID),
   ("LoopID", .jnum c.LoopID),
   ("Attr", .jnum c.Attr),
   ("Functions", .jarr (c.Functions.map CalleeFuncInfo.toJVal))]

/-- The source `CalleeFuncList.fromJSON` (object branch). -/
def CalleeFuncList.fromJSON (fs : List (String × JVal)) :
    Option CalleeFuncList := do
  let id ← lookupField fs "ID" >>= asStr
  let fid ← lookupField fs "FuncID" >>= asNum
  let lid ← lookupField fs "LoopID" >>= asNum
  let at_ ← lookupField fs "Attr" >>= asNum
  let fns ← match lookupField fs "Functions" with
            | some (.jarr xs) => decodeList CalleeFuncInfo.fromJVal xs
            | _ => none
  pure ⟨id, fid, lid, at_, fns⟩

/-- A decoded wire message: the catalog registered in the `ProjectEngine`
constructor of `project.ts` supports exactly these five response kinds
(`new msg.Parser(msg.Diagnostic, msg.Statistic, msg.FunctionList,
msg.LoopTree, msg.CalleeFuncList)`). -/
inductive DecodedMsg where
  | diagnostic (d : Diagnostic)
  | statistic (s : Statistic)
  | functionList (f : FunctionList)
  | loopTree (l : LoopTree)
  | calleeFuncList (c : CalleeFuncList)
deriving DecidableEq, Repr

/-- The test `obj instanceof msg.Diagnostic && obj.Status !=
msg.Status.Success` of `ProjectEngine._onResponse`. -/
def isFailDiag : DecodedMsg → Bool
  | .diagnostic d => d.Status ≠ Status.Success
  | _ => false

/-- The reserved frame delimiter `log.Project.delimiter = '$'`. -/
def delim : Char := '$'

/-- JavaScript `String.prototype.split` with a single-character separator,
over character lists: `"a$b$".split('$') = ["a","b",""]`, `"".split('$') =
[""]`. -/
def splitOn (d : Char) : List Char → List (List Char)
  | [] => [[]]
  | c :: rest =>
    if c = d then [] :: splitOn d rest
    else
      match splitOn d rest with
      | [] => [[c]]
      | h :: t => (c :: h) :: t

/-- The framing part of `ProjectEngine._onResponse` applied to one received
chunk:

```
let array = response.split(log.Project.delimiter);
if (array[array.length - 1] == '')
  array.pop(); // ignore the last empty substring
```

Every returned segment is then handed to the decoder as a complete message
text (the cited `_onResponse` keeps no buffer across chunks). -/
def chunkFrames (chunk : List Char) : List (List Char) :=
  let array := splitOn delim chunk
  if array.getLast? = some [] then array.dropLast else array

/-- The message texts surfaced to the decoder across a sequence of received
chunks: each chunk is processed by its own `_onResponse` call, in order. -/
def emittedFrames (chunks : List (List Char)) : List (List Char) :=
  (chunks.map chunkFrames).flatten

/-- The wire encoding of a sequence of message texts: each message is
followed by the reserved delimiter (`JSON(message) + DELIM` concatenated). -/
def frameMsgs (msgs : List (List Char)) : List Char :=
  (msgs.map (fun m => m ++ [delim])).flatten

/-- Result of one renderer state's handling routine
(`state.provider.update(this)`): it may succeed, reject its deferred
result asynchronously, or throw synchronously. -/
inductive HResult where
  | ok
  | rejected
  | thrown
deriving DecidableEq, Repr

/-- A registered content provider state as seen from `Project`: its scheme
key and the behaviour of its handling routine on the response value it reads
(`project.response`, the first unconsumed response, `none` when the queue is
exhausted). -/
structure PProvider where
  scheme : String
  behave : Option DecodedMsg → HResult

/-- The `Project` class of `project.ts`: the response log `_responses`, the
next-unconsumed cursor `_newResponse`, the registered provider states
`_providers` (a `Map`, iterated in insertion order), the `_isDisposed` flag,
the socket and server-process handles (modelled by their open/running
flags), and the payloads written to the socket. -/
structure Proj where
  responses : List DecodedMsg
  newResponse : Nat
  providers : List PProvider
  isDisposed : Bool
  clientOpen : Bool
  serverRunning : Bool
  sent : List (List Char)

/-- A freshly constructed project with the given providers registered, as
built in the `listening` branch of `_startServer` (socket connected, server
process running, empty response log). -/
def mkProj (ps : List PProvider) : Proj :=
  ⟨[], 0, ps, false, true, true, []⟩

/-- The source `Project.dispose`:

```
if (this._isDisposed) return;
this._isDisposed = true;
this._providers.clear();
this._output.hide();
this._client.end();
this._server.kill();
this._disposable.dispose();
```
-/
def Proj.dispose (p : Proj) : Proj :=
  if p.isDisposed then p
  else { p with isDisposed := true, providers := [],
                clientOpen := false, serverRunning := false }

/-- The `response` getter: the first response not evaluated yet. -/
def Proj.response? (p : Proj) : Option DecodedMsg :=
  p.responses.get? p.newResponse

/-- The source `Project._pop`: advance the next-unconsumed cursor when a
response is available (the returned value is unused by `update`). -/
def Proj.pop (p : Proj) : Proj :=
  if p.newResponse < p.responses.length
  then { p with newResponse := p.newResponse + 1 }
  else p

/-- The error Node raises when `socket.write` is called after
`socket.end()` (surfaced through the socket's `error` listener, which the
engine routes to `_internalError`). -/
inductive SendErr where
  | writeAfterEnd
deriving DecidableEq, Repr

/-- The source `Project.send`: `this._client.write(JSON.stringify(request) +
log.Project.delimiter)`. A write the transport cannot accept at once is
retried on `drain` preserving order, modelled as an immediate append; a
write on the ended socket changes nothing and raises `write after end`. -/
def Proj.send (p : Proj) (request : List Char) : Proj × Option SendErr :=
  if p.clientOpen
  then ({ p with sent := p.sent ++ [request ++ [delim]] }, none)
  else (p, some .writeAfterEnd)

/-- Iterate `this._providers.forEach(state => {state.provider.update(this)})`
over the registered providers in insertion order; returns the schemes whose
handling routine was invoked and whether one of them threw synchronously
(`Map.forEach` propagates a thrown exception at once, skipping the rest;
a rejected deferred result does not propagate). -/
def notifyAll (ps : List PProvider) (x : Option DecodedMsg) :
    List String × Bool :=
  match ps with
  | [] => ([], false)
  | q :: rest =>
    match q.behave x with
    | .thrown => ([q.scheme], true)
    | _ =>
      let r := notifyAll rest x
      (q.scheme :: r.1, r.2)

/-- Result of `Project.update`: the project state afterwards, the response
value the handlers read, the schemes invoked, and whether a handler threw
(in which case the exception propagates to `update`'s caller and `_pop` is
not executed). -/
structure DispatchResult where
  proj : Proj
  seen : Option DecodedMsg
  notified : List String
  threw : Bool

/-- The source `Project.update` (dispatch):

```
this._responses.push(response);
this._providers.forEach(state => {state.provider.update(this)});
this._pop();
```

Each handler reads `project.response`, the first unconsumed response of the
log after the push. Re-entrant mutation of the project by a handler is
outside the modelled fragment. -/
def Proj.update (p : Proj) (m : DecodedMsg) : DispatchResult :=
  let p1 := { p with responses := p.responses ++ [m] }
  let seen := p1.response?
  let r := notifyAll p1.providers seen
  if r.2 then ⟨p1, seen, r.1, true⟩ else ⟨p1.pop, seen, r.1, false⟩

/-- How one `_onResponse` call ends: all frames of the chunk processed, an
early return after a non-`Success` `Diagnostic`, or an exception caught by
the `catch` branch (`REJECT` sentinel, undecodable frame, or a throwing
handler), which destroys the client socket. -/
inductive Outcome where
  | done
  | diagStop
  | errorStop
deriving DecidableEq, Repr

/-- True exactly when the `catch` branch runs `client.destroy()`. -/
def Outcome.destroysClient : Outcome → Bool
  | .errorStop => true
  | _ => false

/-- Result of the decode/dispatch loop of `_onResponse`. -/
structure ORes where
  proj : Proj
  dispatched : List DecodedMsg
  outcome : Outcome

/-- The `for (let data of array)` loop of `ProjectEngine._onResponse`:

```
if (data === 'REJECT') throw new Error(log.Error.rejected);
let obj = this._parser.fromJSON(data);
if (!obj) throw new Error(log.Error.unknownResponse...);
project.update(obj);
if (obj instanceof msg.Diagnostic && obj.Status != msg.Status.Success) {
  this._diagnostic(project, obj);
  return;
}
```

`decode` stands for `this._parser.fromJSON` (JSON text parsing composed
with the catalog lookup); it is a parameter so the theorems hold for the
concrete parser as well. -/
def processFrames (decode : List Char → Option DecodedMsg) (p : Proj) :
    List (List Char) → ORes
  | [] => ⟨p, [], .done⟩
  | f :: rest =>
    if f = "REJECT".toList then ⟨p, [], .errorStop⟩
    else
      match decode f with
      | none => ⟨p, [], .errorStop⟩
      | some m =>
        let r := p.update m
        if r.threw then ⟨r.proj, [m], .errorStop⟩
        else if isFailDiag m then ⟨r.proj, [m], .diagStop⟩
        else
          let res := processFrames decode r.proj rest
          ⟨res.proj, m :: res.dispatched, res.outcome⟩

/-- The whole `ProjectEngine._onResponse` on one received chunk: split on
the delimiter, drop the trailing empty segment, then decode and dispatch
each segment in order. -/
def onResponse (decode : List Char → Option DecodedMsg) (p : Proj)
    (chunk : List Char) : ORes :=
  processFrames decode p (chunkFrames chunk)

/-- Events of the `ProjectEngine.start` / `_startServer` handshake for one
fixed artifact identity: a `tsar.start` command for it, and the `listening` /
`connected` control signals of the `k`-th spawned server process. -/
inductive EngineEvent where
  | startCmd
  | listening (k : Nat)
  | connected (k : Nat)
deriving DecidableEq, Repr

/-- True for a `connected` control signal. -/
def EngineEvent.isConnected : EngineEvent → Bool
  | .connected _ => true
  | _ => false

/-- Engine state for one artifact identity: how many server processes have
been forked for it, which of them have created their `Project` (each such
project is live: socket connected, process running, handlers installed, and
none of them is ever disposed within the modelled fragment), and the
`_projects` map entry for the identity. -/
structure EngineState where
  spawned : Nat
  created : List Nat
  registry : Option Nat
deriving DecidableEq, Repr

/-- The initial engine state: no server spawned, no session. -/
def initEngine : EngineState := ⟨0, [], none⟩

/-- One step of the `start` handshake, following `project.ts`:

* `startCmd` — `start` checks `this.project(doc.uri)`; only when the
  registry has no entry does it reach `_startServer`, which forks a server
  process (`child_process.fork`).  The precondition checks
  (`_checkDocument`, `_makeProjectDir`) are assumed to pass.
* `listening k` — the `data === log.Server.listening` branch of the
  `message` listener of server `k`: connect the socket, construct the
  `Project`, register the providers, and
  `this._projects.set(ProjectEngine._projectID(uri), project)` (a `Map.set`,
  overwriting any previous entry).  Each server signals `listening` once and
  only a forked server can signal.
* `connected k` — the `data === log.Server.connection` branch: log and
  `resolve(project)`; it touches neither the registry nor the sessions. -/
def engineStep (s : EngineState) : EngineEvent → EngineState
  | .startCmd =>
    if s.registry.isSome then s else { s with spawned := s.spawned + 1 }
  | .listening k =>
    if k < s.spawned ∧ k ∉ s.created then
      { s with created := s.created ++ [k], registry := some k }
    else s
  | .connected _ => s

/-- Run the handshake machine over a trace of events. -/
def engineRun (t : List EngineEvent) : EngineState :=
  t.foldl engineStep initEngine

/-- A `vscode.Uri` as a record of its five components (empty string for an
absent component). -/
structure Uri where
  scheme : String
  authority : String
  path : String
  query : String
  fragment : String
deriving DecidableEq, Repr

/-- The rendering `vscode.Uri.toString`:
`scheme://authority<path>[?query][#fragment]`. -/
def Uri.toText (u : Uri) : String :=
  u.scheme ++ "://" ++ u.authority ++ u.path
  ++ (if u.query = "" then "" else "?" ++ u.query)
  ++ (if u.fragment = "" then "" else "#" ++ u.fragment)

/-- The source `ProjectEngine._projectID`:
`uri.with({query: null}).toString()` — `with({query: null})` resets the
query component (and only it) to empty. -/
def projectID (u : Uri) : String :=
  Uri.toText { u with query := "" }

/-- The contract-relevant fields of a `ProjectWebviewProviderState`
(`webviewProvider` part of `loopTree.ts`): the cached data `_data` and the
`_isActive` flag. The webview panel itself is a volatile UI resource
re-created on render and not part of the cached state. -/
structure WState where
  cached : Option DecodedMsg
  active : Bool
deriving DecidableEq, Repr

/-- The source `ProjectWebviewProviderState.onResponse`:

```
return new Promise(resolve => {
  if (response !== undefined)
    this._data = response;
  resolve(this._data);
});
```

Returns the state afterwards and the resolved data. -/
def wOnResponse (s : WState) (response : Option DecodedMsg) :
    WState × Option DecodedMsg :=
  match response with
  | some r => ({ s with cached := some r }, some r)
  | none => (s, s.cached)

/-- Content promised by `provideContent`. -/
inductive WContent where
  | empty
  | rendered (m : DecodedMsg)
  | wait
deriving DecidableEq, Repr

/-- The source `ProjectWebviewProvider.provideContent`:

```
let response =
  project.response !== undefined &&
  this._needToHandle(project.response) ? project.response : undefined;
return state.onResponse(response, project).then((data) => {
  if (!state.active) return Promise.resolve('');
  ... data !== undefined ? this._provideContent(...) : waitHtml(...) ...
```

`needToHandle` is the provider's declared kind test
(`_needToHandle`). -/
def provideContent (needToHandle : DecodedMsg → Bool) (p : Proj)
    (s : WState) : WState × WContent :=
  let response : Option DecodedMsg :=
    match p.response? with
    | some r => if needToHandle r then some r else none
    | none => none
  let sd := wOnResponse s response
  if sd.1.active = false then (sd.1, .empty)
  else
    match sd.2 with
    | some x => (sd.1, .rendered x)
    | none => (sd.1, .wait)

/-- The state-field effect of `ProjectWebviewProvider.update` for one
project dispatch: `provideContent` runs `onResponse` (the only mutation of
the contract fields); the subsequent panel reveal touches no contract
field. -/
def wUpdate (needToHandle : DecodedMsg → Bool) (p : Proj) (s : WState) :
    WState :=
  (provideContent needToHandle p s).1

/-- No registered handler throws synchronously on reading `x` (real
providers report failures through rejected promises or the
`onDidAriseInternalError` event instead of throwing into `forEach`). -/
def noThrowOn (ps : List PProvider) (x : Option DecodedMsg) : Prop :=
  ∀ q ∈ ps, q.behave x ≠ .thrown

instance (ps : List PProvider) (x : Option DecodedMsg) :
    Decidable (noThrowOn ps x) :=
  List.decidableBAll _ ps

/-- A zero trait-counter record, for concrete evaluations. -/
def traitsZero : TraitStatistic := ⟨0, 0, 0, 0, 0, 0, 0, 0, 0, 0, 0, 0, 0, 0, 0⟩

/-- A server-shaped `Statistic` response with its loop and variable counts
present, as every `Statistic` answer of the analyzer carries them. -/
def statLoopsExample : Statistic :=
  ⟨[("CFile", 1)], 2, some (3, 1), some (4, 2), traitsZero⟩

/-- A degenerate `Statistic` with `Loops` and `Variables` undefined (the
shape of the client-side request object `new msg.Statistic`). -/
def statEmptyExample : Statistic := ⟨[("CFile", 1)], 2, none, none, traitsZero⟩

/-- A `Diagnostic` whose status is `Error`. -/
def diagErrExample : Diagnostic := ⟨["build failed"], [], none, .Error⟩

/-- A decoded non-diagnostic message, for concrete dispatches. -/
def msgStatExample : DecodedMsg := .statistic statEmptyExample

/-- A concrete decoder standing for `_parser.fromJSON` on two known frame
texts. -/
def decodeExample : List Char → Option DecodedMsg := fun s =>
  if s = ['A'] then some (.diagnostic diagErrExample)
  else if s = ['B'] then some msgStatExample
  else none

/-- A provider state whose handling routine succeeds. -/
def provOk : PProvider := ⟨"tsar-main", fun _ => .ok⟩

/-- A provider state whose handling routine rejects its deferred result. -/
def provReject : PProvider := ⟨"tsar-aux", fun _ => .rejected⟩

/-- A provider state whose handling routine throws synchronously. -/
def provThrow : PProvider := ⟨"tsar-bad", fun _ => .thrown⟩

/-- A source location, for concrete message values. -/
def locExample : Location := ⟨1, 1, 1, 1⟩

/-- A concrete `Function` record. -/
def fnExample : Function :=
  ⟨1, "main", locExample, ⟨20, 1, 20, 1⟩, [], ⟨"No", "No", "No", "Yes"⟩⟩

/-- A concrete `FunctionList` response. -/
def flExample : FunctionList := ⟨[fnExample]⟩

/-- The declared kind test of a renderer state handling only
`FunctionList` responses (`response instanceof msg.FunctionList`). -/
def nthFunctionList : DecodedMsg → Bool
  | .functionList _ => true
  | _ => false

/-- A project whose first unconsumed response is a `Statistic` (a kind
foreign to `nthFunctionList`). -/
def projStatExample : Proj := ⟨[msgStatExample], 0, [], false, true, true, []⟩

/-- A renderer state that is active and holds a cached `FunctionList`. -/
def wsExample : WState := ⟨some (.functionList flExample), true⟩

/-- Prepend a pending buffer onto the first segment of a split (the effect
of `array[0] = project.extractRawResponse() + array[0]`). -/
def glueHead (b : List Char) : List (List Char) → List (List Char)
  | [] => [b]
  | h :: t => (b ++ h) :: t

/-- The buffered framing prologue of the later `_onResponse` revision of
`project.ts` (the variant with `Project._rawResponse`,
`spliceRawResponse` and `extractRawResponse`):

```
let array = response.split(log.Project.delimiter);
if (array[array.length - 1] == '')
  array.pop(); // ignore the last empty substring
if (array.length == 0)
  return;
if (response.substr(response.length - delimiter.length) != delimiter) {
  if (array.length == 1) {
    project.spliceRawResponse(array[0]);
    return;
  }
  array[0] = project.extractRawResponse() + array[0];
  project.spliceRawResponse(array.pop());
} else {
  array[0] = project.extractRawResponse() + array[0];
}
```

Takes the pending buffer and the received chunk; returns the new buffer
contents and the complete frames surfaced to the decode loop. -/
def bufferedOnChunk (buf chunk : List Char) : List Char × List (List Char) :=
  let array := splitOn delim chunk
  let arr1 := if array.getLast? = some [] then array.dropLast else array
  match arr1 with
  | [] => (buf, [])
  | a0 :: rest =>
    if chunk.getLast? = some delim then
      ([], (buf ++ a0) :: rest)
    else
      match rest with
      | [] => (buf ++ a0, [])
      | r1 :: rs => ((r1 :: rs).getLastD [], (buf ++ a0) :: (r1 :: rs).dropLast)

/-- Feed a sequence of chunks through the buffered framer, concatenating
the frames surfaced by each `_onResponse` call; returns the final buffer
contents and all surfaced frames in order. -/
def bufferedRun (buf : List Char) : List (List Char) → List Char × List (List Char)
  | [] => (buf, [])
  | c :: cs =>
    let r := bufferedOnChunk buf c
    let rest := bufferedRun r.1 cs
    (rest.1, r.2 ++ rest.2)

/-- The split of a string never yields an empty list of segments. -/
theorem splitOn_ne_nil (d : Char) (s : List Char) : splitOn d s ≠ [] := by
  induction s with
  | nil => simp [splitOn]
  | cons c rest ih =>
    rw [splitOn]
    by_cases hc : c = d
    · simp [hc]
    · simp only [if_neg hc]
      rcases h : splitOn d rest with _ | ⟨a, t⟩ <;> simp

/-- Splitting a string that starts with a delimiter-free prefix followed by
a delimiter yields the prefix as the first segment. -/
theorem splitOn_append (d : Char) (x rest : List Char) (h : d ∉ x) :
    splitOn d (x ++ d :: rest) = x :: splitOn d rest := by
  induction x with
  | nil => simp [splitOn]
  | cons c cs ih =>
    have hc : ¬c = d := fun e => h (e ▸ List.mem_cons_self c cs)
    have hcs : d ∉ cs := fun hm => h (List.mem_cons_of_mem _ hm)
    rw [List.cons_append, splitOn, if_neg hc, ih hcs]

/-- Splitting a delimiter-terminated concatenation of delimiter-free
message texts yields the texts followed by one empty segment. -/
theorem splitOn_frameMsgs (msgs : List (List Char))
    (h : ∀ m ∈ msgs, delim ∉ m) :
    splitOn delim (frameMsgs msgs) = msgs ++ [[]] := by
  induction msgs with
  | nil => rfl
  | cons m ms ih =>
    have hm : delim ∉ m := h m (List.mem_cons_self m ms)
    have hms : ∀ x ∈ ms, delim ∉ x := fun x hx => h x (List.mem_cons_of_mem _ hx)
    show splitOn delim ((m ++ [delim]) ++ frameMsgs ms) = (m :: ms) ++ [[]]
    rw [List.append_assoc, List.singleton_append, splitOn_append delim m _ hm,
      ih hms]
    rfl

/-- A chunk that is exactly a concatenation of whole frames is split by
`_onResponse` into exactly the framed message texts, in order. -/
theorem chunkFrames_frameMsgs (msgs : List (List Char))
    (h : ∀ m ∈ msgs, delim ∉ m) :
    chunkFrames (frameMsgs msgs) = msgs := by
  unfold chunkFrames
  rw [splitOn_frameMsgs msgs h]
  simp

/-- Peeling one complete frame off the front of a chunk. -/
theorem chunkFrames_append_delim (t1 suffix : List Char) (h : delim ∉ t1) :
    chunkFrames (t1 ++ delim :: suffix) = t1 :: chunkFrames suffix := by
  unfold chunkFrames
  rw [splitOn_append delim t1 suffix h]
  have hne := splitOn_ne_nil delim suffix
  rcases hA : splitOn delim suffix with _ | ⟨a, as⟩
  · exact absurd hA hne
  · show (if (t1 :: a :: as).getLast? = some [] then (t1 :: a :: as).dropLast
        else t1 :: a :: as)
      = t1 :: (if (a :: as).getLast? = some [] then (a :: as).dropLast
        else a :: as)
    rw [List.getLast?_cons_cons]
    by_cases hg : (a :: as).getLast? = some []
    · simp [hg]
    · simp [hg]

/-- Folding a step function over a trace of identical events keeps a fixed
point fixed. -/
theorem foldl_fixed {α β : Type} (f : α → β → α) (s : α) (e : β)
    (h : f s e = s) : ∀ n, List.foldl f s (List.replicate n e) = s := by
  intro n
  induction n with
  | zero => rfl
  | succ k ih => rw [List.replicate_succ, List.foldl_cons, h, ih]

/-- When no registered handler throws on the value it reads, `forEach`
invokes every handler, in registration order. -/
theorem notifyAll_noThrow (ps : List PProvider) (x : Option DecodedMsg)
    (h : ∀ q ∈ ps, q.behave x ≠ .thrown) :
    notifyAll ps x = (ps.map PProvider.scheme, false) := by
  induction ps with
  | nil => rfl
  | cons q rest ih =>
    have hq := h q (List.mem_cons_self q rest)
    have hrest := ih (fun r hr => h r (List.mem_cons_of_mem _ hr))
    cases hb : q.behave x with
    | thrown => exact absurd hb hq
    | ok => simp [notifyAll, hb, hrest]
    | rejected => simp [notifyAll, hb, hrest]

/-- When the handlers before `t` do not throw and `t` throws, `forEach`
stops at `t`: the handlers after it are never invoked. -/
theorem notifyAll_throwAt (pre post : List PProvider) (t : PProvider)
    (x : Option DecodedMsg)
    (hpre : ∀ q ∈ pre, q.behave x ≠ .thrown)
    (ht : t.behave x = .thrown) :
    notifyAll (pre ++ t :: post) x =
      (pre.map PProvider.scheme ++ [t.scheme], true) := by
  induction pre with
  | nil => simp [notifyAll, ht]
  | cons q rest ih =>
    have hq := hpre q (List.mem_cons_self q rest)
    have hr := ih (fun r hr => hpre r (List.mem_cons_of_mem _ hr))
    cases hb : q.behave x with
    | thrown => exact absurd hb hq
    | ok => simp [notifyAll, hb, hr]
    | rejected => simp [notifyAll, hb, hr]

/-- A dispatch on a project none of whose handlers ever throws does not
propagate an exception. -/
theorem update_no_throw (p : Proj) (m : DecodedMsg)
    (h : ∀ q ∈ p.providers, ∀ x, q.behave x ≠ .thrown) :
    (p.update m).threw = false := by
  have hsnd : ∀ x, (notifyAll p.providers x).2 = false := fun x => by
    rw [notifyAll_noThrow p.providers x (fun q hq => h q hq x)]
  simp [Proj.update, hsnd]

/-- Decoding the JSON name of a status recovers the status. -/
theorem statusFromName_statusName (st : Status) :
    statusFromName (statusName st) = some st := by
  cases st <;> rfl

/-- Decoding an encoded array recovers the array when decoding inverts
encoding elementwise. -/
theorem decodeList_map {α : Type} (f : α → JVal) (g : JVal → Option α)
    (h : ∀ a, g (f a) = some a) (xs : List α) :
    decodeList g (xs.map f) = some xs := by
  induction xs with
  | nil => rfl
  | cons a as ih => simp [decodeList, h a, ih]

/-- Decoding an encoded string array recovers the strings. -/
theorem asStrList_map_jstr (xs : List String) :
    asStrList (.jarr (xs.map .jstr)) = some xs := by
  show decodeList asStr (xs.map JVal.jstr) = some xs
  exact decodeList_map JVal.jstr asStr (fun _ => rfl) xs

/-- Encode→decode round trip for `Diagnostic` (supplementary to claim C4):
the decoded value carries every declared field of the original. -/
theorem diagnostic_fromJSON_toJSON (d : Diagnostic) :
    Diagnostic.fromJSON d.toJSON = some d := by
  obtain ⟨e, w, t, st⟩ := d
  cases t <;> cases st <;>
    simp [Diagnostic.toJSON, Diagnostic.fromJSON, lookupField,
      asStrList_map_jstr, statusName, statusFromName, asStr,
      List.find?, bind, Option.bind]

/-- Encode→decode round trip for a `Loop` record. -/
theorem loop_fromJVal_toJVal (l : Loop) : Loop.fromJVal l.toJVal = some l := rfl

/-- Encode→decode round trip for a `Function` record. -/
theorem function_fromJVal_toJVal (f : Function) :
    Function.fromJVal f.toJVal = some f := by
  obtain ⟨id, na, sl, el, lo, tr⟩ := f
  show Option.bind (decodeList Loop.fromJVal (lo.map Loop.toJVal))
      (fun lo2 => some (Function.mk id na sl el lo2 tr))
    = some (Function.mk id na sl el lo tr)
  rw [decodeList_map Loop.toJVal Loop.fromJVal loop_fromJVal_toJVal lo]
  rfl

/-- Encode→decode round trip for `FunctionList` (supplementary to C4). -/
theorem functionList_fromJSON_toJSON (f : FunctionList) :
    FunctionList.fromJSON f.toJSON = some f := by
  obtain ⟨fns⟩ := f
  show Option.bind (decodeList Function.fromJVal (fns.map Function.toJVal))
      (fun fns2 => some (FunctionList.mk fns2))
    = some (FunctionList.mk fns)
  rw [decodeList_map Function.toJVal Function.fromJVal
    function_fromJVal_toJVal fns]
  rfl

/-- Encode→decode round trip for `LoopTree` (supplementary to C4). -/
theorem loopTree_fromJSON_toJSON (l : LoopTree) :
    LoopTree.fromJSON l.toJSON = some l := by
  obtain ⟨fid, lo⟩ := l
  show Option.bind (decodeList Loop.fromJVal (lo.map Loop.toJVal))
      (fun lo2 => some (LoopTree.mk fid lo2))
    = some (LoopTree.mk fid lo)
  rw [decodeList_map Loop.toJVal Loop.fromJVal loop_fromJVal_toJVal lo]
  rfl

/-- Encode→decode round trip for a `CalleeFuncInfo` record. -/
theorem calleeFuncInfo_fromJVal_toJVal (c : CalleeFuncInfo) :
    CalleeFuncInfo.fromJVal c.toJVal = some c := by
  obtain ⟨id, lv, na, lo⟩ := c
  show Option.bind (decodeList Location.fromJVal (lo.map Location.toJVal))
      (fun lo2 => some (CalleeFuncInfo.mk id lv na lo2))
    = some (CalleeFuncInfo.mk id lv na lo)
  rw [decodeList_map Location.toJVal Location.fromJVal (fun _ => rfl) lo]
  rfl

/-- Encode→decode round trip for `CalleeFuncList` (supplementary to C4). -/
theorem calleeFuncList_fromJSON_toJSON (c : CalleeFuncList) :
    CalleeFuncList.fromJSON c.toJSON = some c := by
  obtain ⟨id, fid, lid, at_, fns⟩ := c
  show Option.bind
      (decodeList CalleeFuncInfo.fromJVal (fns.map CalleeFuncInfo.toJVal))
      (fun fns2 => some (CalleeFuncList.mk id fid lid at_ fns2))
    = some (CalleeFuncList.mk id fid lid at_ fns)
  rw [decodeList_map CalleeFuncInfo.toJVal CalleeFuncInfo.fromJVal
    calleeFuncInfo_fromJVal_toJVal fns]
  rfl

/-- C1 (amended): the cited `ProjectEngine._onResponse` splits every received
chunk on the delimiter independently and keeps no buffer across chunks, so
split-invariance holds exactly for the chunkings in which every chunk is a
concatenation of whole frames: then the emitted message texts are the
original sequence, in order.  (A chunk boundary inside a frame instead
surfaces the partial segments as complete messages; see the
counterexample.) -/
theorem framer_aligned_split_invariance
    (chunksM : List (List (List Char)))
    (h : ∀ ms ∈ chunksM, ∀ m ∈ ms, delim ∉ m) :
    emittedFrames (chunksM.map frameMsgs) = chunksM.flatten := by
  induction chunksM with
  | nil => rfl
  | cons ms mss ih =>
    have h1 := h ms (List.mem_cons_self ms mss)
    have h2 : ∀ x ∈ mss, ∀ m ∈ x, delim ∉ m :=
      fun x hx => h x (List.mem_cons_of_mem _ hx)
    show chunkFrames (frameMsgs ms) ++ emittedFrames (mss.map frameMsgs)
      = ms ++ mss.flatten
    rw [chunkFrames_frameMsgs ms h1, ih h2]

/-- C1 witness: two aligned chunks carrying the frames `ab$` and `c$` are
reassembled into the message texts `ab`, `c`. -/
theorem framer_aligned_split_invariance_witness :
    emittedFrames (List.map frameMsgs [[['a', 'b']], [['c']]])
      = [['a', 'b'], ['c']] :=
  framer_aligned_split_invariance [[['a', 'b']], [['c']]] (by decide)

/-- C1 counterexample: the concatenation of the chunks `a` and `b$` is the
framing of the single message `ab`, yet the handler emits the two texts
`a` and `b` — the trailing segment `a` of the first chunk is not retained
for the next chunk but surfaced as a complete message. -/
theorem framer_split_invariance_fails_unaligned :
    List.flatten [['a'], ['b', delim]] = frameMsgs [['a', 'b']] ∧
    delim ∉ ['a', 'b'] ∧
    emittedFrames [['a'], ['b', delim]] = [['a'], ['b']] ∧
    emittedFrames [['a'], ['b', delim]] ≠ [['a', 'b']] := by
  decide

/-- C10 (confirmed): when a frame of a chunk decodes to a `Diagnostic`
whose status is not `Success`, `_onResponse` dispatches that diagnostic and
returns at once: whatever follows in the same chunk is discarded without
being decoded or dispatched (the result is independent of the suffix), and
the client socket is not destroyed. -/
theorem onResponse_fail_diag_stops
    (decode : List Char → Option DecodedMsg) (p : Proj)
    (t1 suffix : List Char) (d : Diagnostic)
    (h1 : delim ∉ t1) (h2 : ¬t1 = "REJECT".toList)
    (h3 : decode t1 = some (.diagnostic d)) (h4 : d.Status ≠ .Success)
    (h5 : ∀ q ∈ p.providers, ∀ x, q.behave x ≠ .thrown) :
    onResponse decode p (t1 ++ delim :: suffix) =
      ⟨(p.update (.diagnostic d)).proj, [.diagnostic d], .diagStop⟩ ∧
    (onResponse decode p (t1 ++ delim :: suffix)).outcome.destroysClient
      = false := by
  have hchunk := chunkFrames_append_delim t1 suffix h1
  have hthrew := update_no_throw p (.diagnostic d) h5
  have hfail : isFailDiag (.diagnostic d) = true := by
    simp [isFailDiag, h4]
  have hmain : onResponse decode p (t1 ++ delim :: suffix) =
      ⟨(p.update (.diagnostic d)).proj, [.diagnostic d], .diagStop⟩ := by
    have h2' : ¬t1 = ['R', 'E', 'J', 'E', 'C', 'T'] := by simpa using h2
    unfold onResponse
    rw [hchunk]
    simp [processFrames, h2', h3, hthrew, hfail]
  exact ⟨hmain, by rw [hmain]; rfl⟩

/-- C10 witness: a chunk holding the frames `A$` and `B$`, where `A`
decodes to an `Error` diagnostic, dispatches only that diagnostic and keeps
the connection. -/
theorem onResponse_fail_diag_stops_witness :
    onResponse decodeExample (mkProj [provReject])
        (['A'] ++ delim :: ['B', delim]) =
      ⟨((mkProj [provReject]).update (.diagnostic diagErrExample)).proj,
        [.diagnostic diagErrExample], .diagStop⟩ ∧
    (onResponse decodeExample (mkProj [provReject])
        (['A'] ++ delim :: ['B', delim])).outcome.destroysClient = false :=
  onResponse_fail_diag_stops decodeExample (mkProj [provReject]) ['A']
    ['B', delim] diagErrExample (by decide) (by decide) (by decide)
    (by decide)
    (fun q hq x => by
      have hq' : q = provReject := by simpa [mkProj] using hq
      subst hq'
      simp [provReject])

/-- C2 (amended): one `tsar.start`, then the server's `listening` signal
(which inserts the session), then any number of further `tsar.start`
commands yield exactly one spawned server and one live session — the
`this.project(doc.uri) !== undefined` guard sees the registry entry.  The
guarantee needs the second `start` to come after the insertion; two `start`
commands both issued before the first `listening` signal spawn two servers
and produce two live sessions (see the counterexample). -/
theorem start_after_registration_single_session (n : Nat) :
    engineRun (.startCmd :: .listening 0 :: List.replicate n .startCmd) =
      ⟨1, [0], some 0⟩ := by
  show List.foldl engineStep initEngine _ = _
  rw [List.foldl_cons, List.foldl_cons]
  have hs : engineStep (engineStep initEngine .startCmd) (.listening 0) =
      ⟨1, [0], some 0⟩ := by decide
  rw [hs]
  exact foldl_fixed engineStep ⟨1, [0], some 0⟩ .startCmd (by decide) n

/-- C2 counterexample: two `start` commands before the first `listening`
both pass the registry check, fork two servers, and each `listening` signal
creates a live session — two live sessions for the identity, the registry
retaining only the most recent. -/
theorem double_start_two_live_sessions :
    (engineRun [.startCmd, .startCmd, .listening 0, .listening 1]).created
      = [0, 1] ∧
    (engineRun [.startCmd, .startCmd, .listening 0, .listening 1]).spawned
      = 2 ∧
    (engineRun [.startCmd, .startCmd, .listening 0, .listening 1]).registry
      = some 1 := by
  decide

/-- C3 (amended): the session is inserted into the registry by the
`listening` branch of `_startServer` — before the process has signalled
`connected` — while the `connected` signal changes nothing: it only
resolves the `start` promise. -/
theorem registry_insert_at_listening :
    (∀ (s : EngineState) (k : Nat), engineStep s (.connected k) = s) ∧
    (∀ (s : EngineState) (k : Nat), k < s.spawned → k ∉ s.created →
      (engineStep s (.listening k)).registry = some k) := by
  constructor
  · intro s k
    rfl
  · intro s k hk hc
    simp [engineStep, hk, hc]

/-- C3 witness: with one spawned server, its `listening` signal already
occupies the registry, and a `connected` signal alone changes nothing. -/
theorem registry_insert_at_listening_witness :
    engineStep ⟨1, [], none⟩ (.connected 0) = ⟨1, [], none⟩ ∧
    (engineStep ⟨1, [], none⟩ (.listening 0)).registry = some 0 :=
  ⟨registry_insert_at_listening.1 ⟨1, [], none⟩ 0,
   registry_insert_at_listening.2 ⟨1, [], none⟩ 0 (by decide) (by decide)⟩

/-- C3 counterexample: after `start` and the `listening` signal — a trace
holding no `connected` event at all — the registry already holds the
session, refuting insertion "only at or after `connected`". -/
theorem registry_occupied_before_connected :
    (engineRun [.startCmd, .listening 0]).registry = some 0 ∧
    ([EngineEvent.startCmd, .listening 0].all
      (fun e => !e.isConnected)) = true := by
  decide

/-- C4 (code_bug): `Statistic.toJSON` sets `json.Loops = undefined` and
then assigns into `json.Loops`, a `TypeError`, whenever `Loops` is defined
— as it is in every `Statistic` response — so encode→decode cannot round
trip; and even for the degenerate value without `Loops`/`Variables` the
decode side reads a property of the absent `json.Loops` and fails too. -/
theorem statistic_roundtrip_crashes :
    Statistic.toJSON statLoopsExample = .error .typeError ∧
    Statistic.roundTrip statLoopsExample = .error .typeError ∧
    Statistic.roundTrip statEmptyExample = .error .typeError :=
  ⟨rfl, rfl, rfl⟩

/-- C5 (amended): after `stop()` (i.e. `dispose`), a `dispatch` does not
crash and notifies no renderer state — the provider map was cleared — but
it is not free of observable effects: it still appends the message to the
response log and advances the next-unconsumed cursor; and a `send` writes
nothing but raises the `write after end` transport error instead of being a
no-op. -/
theorem dispatch_send_after_dispose (p : Proj) (m : DecodedMsg)
    (request : List Char)
    (h1 : p.isDisposed = false)
    (h2 : p.newResponse ≤ p.responses.length) :
    (p.dispose.update m).notified = [] ∧
    (p.dispose.update m).threw = false ∧
    (p.dispose.update m).proj.responses = p.responses ++ [m] ∧
    (p.dispose.update m).proj.newResponse = p.newResponse + 1 ∧
    (p.dispose.send request).1 = p.dispose ∧
    (p.dispose.send request).2 = some .writeAfterEnd := by
  have hd : p.dispose
      = { p with
          isDisposed := true
          providers := []
          clientOpen := false
          serverRunning := false } := by
    simp [Proj.dispose, h1]
  have hlt : p.newResponse < p.responses.length + 1 := Nat.lt_succ_of_le h2
  refine ⟨?_, ?_, ?_, ?_, ?_, ?_⟩ <;>
    simp [hd, Proj.update, notifyAll, Proj.pop, Proj.response?, Proj.send,
      hlt]

/-- C5 witness: a fresh session with one registered provider, disposed and
then dispatched to and written to. -/
theorem dispatch_send_after_dispose_witness :
    ((mkProj [provOk]).dispose.update msgStatExample).notified = [] ∧
    ((mkProj [provOk]).dispose.update msgStatExample).threw = false ∧
    ((mkProj [provOk]).dispose.update msgStatExample).proj.responses =
      (mkProj [provOk]).responses ++ [msgStatExample] ∧
    ((mkProj [provOk]).dispose.update msgStatExample).proj.newResponse =
      (mkProj [provOk]).newResponse + 1 ∧
    ((mkProj [provOk]).dispose.send "X".toList).1 = (mkProj [provOk]).dispose ∧
    ((mkProj [provOk]).dispose.send "X".toList).2 = some .writeAfterEnd :=
  dispatch_send_after_dispose (mkProj [provOk]) msgStatExample "X".toList
    (by decide) (by decide)

/-- C5 counterexample: a dispatch after `dispose` grows the response log
(observable through `responseNumber()` and the `response` getter), and a
subsequent `send` raises the write-after-end error — so it is neither
effect-free nor error-free. -/
theorem dispatch_after_dispose_grows_log :
    ((mkProj []).dispose.update msgStatExample).proj.responses
      = [msgStatExample] ∧
    (mkProj []).dispose.responses = [] ∧
    ((mkProj []).dispose.send "X".toList).2 = some .writeAfterEnd :=
  ⟨rfl, rfl, rfl⟩

/-- C6 (amended): a handler that rejects its deferred result does not
prevent later registered states from receiving the message — only
synchronous throws do: when the handlers before `t` do not throw and `t`
throws, the states registered after `t` never receive the message and the
exception propagates out of `update`. -/
theorem dispatch_isolation_rejected_not_thrown
    (ps : List PProvider) (m : DecodedMsg) :
    (noThrowOn ps (some m) →
      ((mkProj ps).update m).notified = ps.map PProvider.scheme ∧
      ((mkProj ps).update m).threw = false) ∧
    (∀ pre t post, ps = pre ++ t :: post → noThrowOn pre (some m) →
      t.behave (some m) = .thrown →
      ((mkProj ps).update m).notified
        = pre.map PProvider.scheme ++ [t.scheme] ∧
      ((mkProj ps).update m).threw = true) := by
  constructor
  · intro h
    have hn := notifyAll_noThrow ps (some m) h
    simp [Proj.update, mkProj, Proj.response?, hn]
  · intro pre t post hps hpre ht
    subst hps
    have hn := notifyAll_throwAt pre post t (some m) hpre ht
    simp [Proj.update, mkProj, Proj.response?, hn]

/-- C6 witness: with a succeeding and a rejecting handler both are
notified; with a throwing handler first, delivery stops at it. -/
theorem dispatch_isolation_witness :
    (((mkProj [provOk, provReject]).update msgStatExample).notified
        = List.map PProvider.scheme [provOk, provReject] ∧
      ((mkProj [provOk, provReject]).update msgStatExample).threw = false) ∧
    (((mkProj [provThrow, provOk]).update msgStatExample).notified
        = List.map PProvider.scheme [] ++ [provThrow.scheme] ∧
      ((mkProj [provThrow, provOk]).update msgStatExample).threw = true) :=
  ⟨(dispatch_isolation_rejected_not_thrown [provOk, provReject]
      msgStatExample).1 (by decide),
   (dispatch_isolation_rejected_not_thrown [provThrow, provOk]
      msgStatExample).2 [] provThrow [provOk] rfl (by decide) (by decide)⟩

/-- C6 counterexample: with the throwing state registered first, the
second registered state never receives the message, refuting "every other
registered Renderer State still receives the same message" for thrown
errors (`Project.update` has no per-handler try/catch around `forEach`). -/
theorem thrown_handler_blocks_later_providers :
    ((mkProj [provThrow, provOk]).update msgStatExample).notified
      = ["tsar-bad"] ∧
    "tsar-main" ∉
      ((mkProj [provThrow, provOk]).update msgStatExample).notified := by
  decide

/-- C7 (amended): `dispatch(message)` appends the message to the response
log and invokes every registered state's routine in registration order —
each reading the first unconsumed response, which is the appended message
when the cursor was caught up — but it does not leave the cursor alone: it
ends by advancing the next-unconsumed cursor one step through `_pop`. -/
theorem dispatch_appends_notifies_advances (p : Proj) (m : DecodedMsg)
    (h0 : p.newResponse = p.responses.length)
    (h1 : noThrowOn p.providers (some m)) :
    (p.update m).proj.responses = p.responses ++ [m] ∧
    (p.update m).seen = some m ∧
    (p.update m).notified = p.providers.map PProvider.scheme ∧
    (p.update m).threw = false ∧
    (p.update m).proj.newResponse = p.newResponse + 1 := by
  have hseen : (p.responses ++ [m])[p.newResponse]? = some m := by
    rw [h0]
    exact List.getElem?_concat_length _ _
  have hn := notifyAll_noThrow p.providers (some m) h1
  have hlt : p.newResponse < p.responses.length + 1 := by
    rw [h0]
    exact Nat.lt_succ_self _
  refine ⟨?_, ?_, ?_, ?_, ?_⟩ <;>
    simp [Proj.update, Proj.response?, Proj.pop, hseen, hn, hlt]

/-- C7 witness: dispatch of a statistic to a caught-up session with one
succeeding provider. -/
theorem dispatch_appends_notifies_advances_witness :
    ((mkProj [provOk]).update msgStatExample).proj.responses
      = (mkProj [provOk]).responses ++ [msgStatExample] ∧
    ((mkProj [provOk]).update msgStatExample).seen = some msgStatExample ∧
    ((mkProj [provOk]).update msgStatExample).notified
      = (mkProj [provOk]).providers.map PProvider.scheme ∧
    ((mkProj [provOk]).update msgStatExample).threw = false ∧
    ((mkProj [provOk]).update msgStatExample).proj.newResponse
      = (mkProj [provOk]).newResponse + 1 :=
  dispatch_appends_notifies_advances (mkProj [provOk]) msgStatExample rfl
    (by decide)

/-- C7 counterexample: even with no provider registered, a dispatch moves
the next-unconsumed cursor from 0 to 1 — `update` ends in `this._pop()` —
refuting "the next-unconsumed cursor is not moved by dispatch itself". -/
theorem dispatch_advances_cursor :
    ((mkProj []).update msgStatExample).proj.newResponse = 1 ∧
    (mkProj []).newResponse = 0 := by
  decide

/-- C8 (confirmed): a dispatched message whose kind fails the renderer
state's declared kind test (`_needToHandle`) is filtered to `undefined`
before `onResponse`, so the state is returned unchanged: the cached data is
byte-for-byte the same and the `active` flag untouched (the only re-render
that may follow repaints the same cached content). -/
theorem foreign_kind_leaves_state_unchanged (needToHandle : DecodedMsg → Bool)
    (p : Proj) (s : WState)
    (h : ∀ r, p.response? = some r → needToHandle r = false) :
    wUpdate needToHandle p s = s := by
  have hresp : (match p.response? with
      | some r => if needToHandle r then some r else none
      | none => none) = (none : Option DecodedMsg) := by
    cases hr : p.response? with
    | none => rfl
    | some r => simp [h r hr]
  simp only [wUpdate, provideContent, hresp, wOnResponse]
  cases hc : s.cached <;> cases ha : s.active <;> simp [ha, hc]

/-- C8 witness: a statistic response dispatched to an active state caching
a function list, whose kind set holds only `FunctionList`, leaves the state
unchanged. -/
theorem foreign_kind_leaves_state_unchanged_witness :
    wUpdate nthFunctionList projStatExample wsExample = wsExample :=
  foreign_kind_leaves_state_unchanged nthFunctionList projStatExample
    wsExample
    (fun r hr => by
      have hr' : r = msgStatExample := by
        have : some msgStatExample = some r := hr
        exact (Option.some.injEq _ _ ▸ this).symm
      subst hr'
      rfl)

/-- C9 (amended): the session identity `_projectID` strips exactly the
query component — two URIs differing only in query share one identity —
while the fragment is kept in the identity string (see the
counterexample). -/
theorem projectID_strips_query (u : Uri) (q' : String) :
    projectID { u with query := q' } = projectID u := rfl

/-- C9 counterexample: two URIs that agree on scheme, authority, path and
query and differ only in fragment get different identities, refuting "any
query and any fragment stripped". -/
theorem projectID_keeps_fragment :
    (Uri.mk "file" "" "/home/user/main.c" "" "").scheme
      = (Uri.mk "file" "" "/home/user/main.c" "" "L5").scheme ∧
    (Uri.mk "file" "" "/home/user/main.c" "" "").authority
      = (Uri.mk "file" "" "/home/user/main.c" "" "L5").authority ∧
    (Uri.mk "file" "" "/home/user/main.c" "" "").path
      = (Uri.mk "file" "" "/home/user/main.c" "" "L5").path ∧
    (Uri.mk "file" "" "/home/user/main.c" "" "").query
      = (Uri.mk "file" "" "/home/user/main.c" "" "L5").query ∧
    projectID (Uri.mk "file" "" "/home/user/main.c" "" "")
      ≠ projectID (Uri.mk "file" "" "/home/user/main.c" "" "L5") := by
  decide

/-- Split always yields a first segment. -/
theorem splitOn_exists_cons (d : Char) (s : List Char) :
    ∃ h t, splitOn d s = h :: t := by
  rcases hS : splitOn d s with _ | ⟨h, t⟩
  · exact absurd hS (splitOn_ne_nil d s)
  · exact ⟨h, t, rfl⟩

/-- The last element of a cons-append chain ending in a nonempty list. -/
theorem getLast?_cons_append {α : Type} (a : α) (D : List α) (x : α)
    (X : List α) :
    (a :: (D ++ x :: X)).getLast? = (x :: X).getLast? := by
  rw [← List.cons_append, List.getLast?_append_of_ne_nil _ (List.cons_ne_nil x X)]

/-- Dropping the last element of a cons-append chain ending in a nonempty
list. -/
theorem dropLast_cons_append {α : Type} (a : α) (D : List α) (x : α)
    (X : List α) :
    (a :: (D ++ x :: X)).dropLast = a :: (D ++ (x :: X).dropLast) := by
  rw [← List.cons_append, List.dropLast_append_cons, List.cons_append]

/-- Splitting a concatenation: the last (incomplete) segment of the first
part glues onto the first segment of the second part. -/
theorem splitOn_append_glue (d : Char) (x y : List Char) :
    splitOn d (x ++ y) =
      (splitOn d x).dropLast
        ++ glueHead ((splitOn d x).getLastD []) (splitOn d y) := by
  induction x with
  | nil =>
    obtain ⟨h, t, hS⟩ := splitOn_exists_cons d y
    simp [splitOn, glueHead, hS]
  | cons c x' ih =>
    obtain ⟨h, t, hS⟩ := splitOn_exists_cons d x'
    by_cases hc : c = d
    · rw [List.cons_append, splitOn, if_pos hc, splitOn, if_pos hc, ih, hS]
      simp [glueHead]
    · rw [List.cons_append, splitOn, if_neg hc, splitOn, if_neg hc, ih, hS]
      obtain ⟨hy, ty, hSy⟩ := splitOn_exists_cons d y
      rw [hSy]
      cases t with
      | nil => simp [glueHead]
      | cons t0 ts => simp [glueHead]

/-- Splitting a delimiter-terminated string. -/
theorem splitOn_concat_delim (ys : List Char) :
    splitOn delim (ys ++ [delim]) =
      (splitOn delim ys).dropLast
        ++ [(splitOn delim ys).getLastD [], []] := by
  rw [splitOn_append_glue]
  simp [splitOn, glueHead]

/-- Splitting a string ending in a non-delimiter character. -/
theorem splitOn_concat_ne (ys : List Char) (c : Char) (hc : ¬c = delim) :
    splitOn delim (ys ++ [c]) =
      (splitOn delim ys).dropLast
        ++ [(splitOn delim ys).getLastD [] ++ [c]] := by
  rw [splitOn_append_glue]
  simp [splitOn, hc, glueHead]

/-- One chunk through the buffered framer behaves like splitting the buffer
concatenated with the chunk: it surfaces all complete segments and retains
the trailing incomplete segment as the new buffer. -/
theorem bufferedOnChunk_spec (buf chunk : List Char) :
    bufferedOnChunk buf chunk =
      ((glueHead buf (splitOn delim chunk)).getLastD [],
       (glueHead buf (splitOn delim chunk)).dropLast) := by
  rcases List.eq_nil_or_concat chunk with rfl | ⟨ys, c, rfl⟩
  · simp [bufferedOnChunk, splitOn, glueHead]
  · rw [List.concat_eq_append]
    by_cases hc : c = delim
    · subst hc
      rw [bufferedOnChunk, splitOn_concat_delim ys]
      rcases hA : (splitOn delim ys).dropLast with _ | ⟨q, qs⟩
      · simp [glueHead, List.getLast?_concat]
      · simp [glueHead, getLast?_cons_append, dropLast_cons_append]
    · rw [bufferedOnChunk, splitOn_concat_ne ys c hc]
      have hlast : (ys ++ [c]).getLast? = some c := List.getLast?_concat _
      have hne : ¬((ys ++ [c]).getLast? = some delim) := by
        simp [hlast, hc]
      rcases hA : (splitOn delim ys).dropLast with _ | ⟨q, qs⟩
      · simp [glueHead, hne, hc]
      · rcases qs with _ | ⟨q1, qs'⟩ <;>
          simp [glueHead, hne, hc, getLast?_cons_append, dropLast_cons_append,
            List.getLast?_concat, List.dropLast_concat]

/-- Running the buffered framer over any chunk sequence surfaces exactly
the complete segments of buffer-plus-input and retains the incomplete
tail. -/
theorem bufferedRun_spec (chunks : List (List Char)) : ∀ buf : List Char,
    bufferedRun buf chunks =
      ((glueHead buf (splitOn delim chunks.flatten)).getLastD [],
       (glueHead buf (splitOn delim chunks.flatten)).dropLast) := by
  induction chunks with
  | nil =>
    intro buf
    simp [bufferedRun, splitOn, glueHead]
  | cons c cs ih =>
    intro buf
    rw [bufferedRun, bufferedOnChunk_spec, ih]
    rw [List.flatten_cons, splitOn_append_glue delim c cs.flatten]
    obtain ⟨h, t, hSc⟩ := splitOn_exists_cons delim c
    obtain ⟨hf, tf, hSF⟩ := splitOn_exists_cons delim cs.flatten
    rw [hSc, hSF]
    cases t with
    | nil => simp [glueHead, List.append_assoc]
    | cons t0 ts =>
      simp [glueHead, getLast?_cons_append, dropLast_cons_append]

/-- The buffered framer of the later `_onResponse` revision is
split-invariant: for delimiter-free message texts and any chunking of their
framed concatenation, running the framer from an empty buffer surfaces
exactly the original message texts, in order, and ends with an empty
buffer. -/
theorem buffered_framer_split_invariance (msgs chunks : List (List Char))
    (hm : ∀ m ∈ msgs, delim ∉ m)
    (hc : chunks.flatten = frameMsgs msgs) :
    bufferedRun [] chunks = ([], msgs) := by
  rw [bufferedRun_spec chunks [], hc, splitOn_frameMsgs msgs hm]
  cases msgs with
  | nil => simp [glueHead]
  | cons m ms =>
    rw [List.cons_append]
    simp only [glueHead, List.nil_append]
    simp [getLast?_cons_append, dropLast_cons_append]

end Tsar
